import Mathlib

/-!
Verification of the deployer trading engine (`src/deployer/trader.py`,
`src/deployer/strategies/entries.py`) against its natural-language
specification.  The Python code is shallowly embedded: prices and
parameters are rationals, pandas `NaN` becomes `Option`, the MetaTrader
polling loop becomes a step function over an explicit trader state fed by
a finite list of tick observations, and order submissions become events
in an explicit trace.
-/

namespace Deployer

/-- Hour-of-day of an epoch-seconds timestamp, as pandas
`DatetimeIndex.hour` computes it for a naive timestamp. -/
def hourOfTime (t : Nat) : Nat := t / 3600 % 24

/-- A Python dict with string keys and numeric values (the shape of
`hour_params` and `strategy_params` in `trader.py`). -/
abbrev Dict := List (String × ℚ)

/-- `d.get(k)` on a dict. -/
def dictGet (d : Dict) (k : String) : Option ℚ := d.lookup k

/-- The dict copy from `_check_and_update_params` after
`strategy_params.pop('tp', None)` and `strategy_params.pop('sl', None)`. -/
def dictDropTpSl (d : Dict) : Dict :=
  d.filter (fun kv => !(kv.1 == "tp") && !(kv.1 == "sl"))

/-- One price bar as stored in `self.data` (columns written by
`_update_data`; the source column `open` is called `openp` because `open`
is a Lean keyword). -/
structure Bar where
  time : Nat
  openp : ℚ
  high : ℚ
  low : ℚ
  close : ℚ
  tick_volume : ℚ
  spread : ℚ
  volume : ℚ
deriving DecidableEq, Repr

/-- Observable actions of the engine: order submissions and log lines
that the claims talk about. -/
inductive Event where
  /-- An `order_send` of a market order opening a position
  (`_open_position`): direction, and the take-profit / stop-loss /
  strategy-parameter tuple in force when it was built. -/
  | openIntent (dir : ℤ) (tp sl : ℚ) (params : Dict)
  /-- The `Falha ao obter dados em tempo real` warning on an empty feed
  read. -/
  | warnFeed
  /-- The `Erro no streaming` log line of the per-tick `except` handler. -/
  | logError
  /-- The forced flatten of `_close_all_positions`. -/
  | closeAll
deriving DecidableEq, Repr

/-- The mutable state of an `AlgoTrader` that the streaming loop touches. -/
structure TraderState where
  data : List Bar
  tp : ℚ
  sl : ℚ
  strategyParams : Dict
  currentHour : Nat
  position : ℤ
  trades : Nat
deriving DecidableEq, Repr

/-- What one iteration of the `while` loop in `_stream_and_trade`
observes from the outside world: the wall clock (`dt.datetime.now()`,
epoch seconds), the result of `copy_rates_from_pos` (`none` models a
`None`/empty read), and whether an exception is raised inside the tick
body (caught by the per-tick `except Exception` handler). -/
structure TickInput where
  now : Nat
  fetch : Option Bar
  fault : Bool

/-- The fixed collaborators of a streaming session: the strategy function
(`self.strategy_func`, returning one optional signal per bar — `none`
models `NaN`), the configuration manager (`none` models a trader without
a `config_manager` attribute; `some f` maps an hour to its `hour_params`
dict or `none` when the hour is not configured), and the session end
timestamp computed in `_stream_and_trade`. -/
structure StreamConfig where
  strat : List Bar → Dict → List (Option ℤ)
  configLookup : Option (Nat → Option Dict)
  endTime : Nat

/-- `Series.ffill()` with initial value `last` (a `none` entry inherits
the previous value). -/
def ffillAux (last : ℤ) : List (Option ℤ) → List ℤ
  | [] => []
  | o :: rest => let v := o.getD last; v :: ffillAux v rest

/-- `positions.ffill().fillna(0)`: forward fill, with leading `NaN`
becoming 0. -/
def ffill (xs : List (Option ℤ)) : List ℤ := ffillAux 0 xs

/-- `_process_strategy`: run the strategy on the stored data, force the
signal to 0 on every bar at hour ≥ 18, then forward-fill
(`trader.py` lines 431-449). -/
def processStrategy (cfg : StreamConfig) (s : TraderState) : List ℤ :=
  let raw := cfg.strat s.data s.strategyParams
  let forced := List.zipWith
    (fun (b : Bar) (p : Option ℤ) => if 18 ≤ hourOfTime b.time then some 0 else p)
    s.data raw
  ffill forced

/-- `_open_position` on the success path: submit the open order built
from the current tp/sl/strategy-parameter tuple and record the new
position (`trader.py` lines 483-635). -/
def openPosition (s : TraderState) (pos : ℤ) : TraderState × List Event :=
  ({ s with position := pos, trades := s.trades + 1 },
   [Event.openIntent pos s.tp s.sl s.strategyParams])

/-- `_execute_trades`: read the last prepared signal; open a position
when it is non-zero, do nothing otherwise (`trader.py` lines 451-457). -/
def executeTrades (cfg : StreamConfig) (s : TraderState) : TraderState × List Event :=
  let newPosition := (processStrategy cfg s).getLast?.getD 0
  if newPosition ≠ 0 then openPosition s newPosition else (s, [])

/-- `_check_and_update_params` (`trader.py` lines 283-317): on an hour
change, record the new hour; when a config manager is present and has
parameters for the new hour, install its tp/sl and remaining entries as
the strategy parameters; otherwise only log. -/
def checkAndUpdateParams (cfg : StreamConfig) (now : Nat) (s : TraderState) : TraderState :=
  let currentHour := hourOfTime now
  if currentHour = s.currentHour then s
  else
    let s' := { s with currentHour := currentHour }
    match cfg.configLookup with
    | none => s'
    | some lookup =>
      match lookup currentHour with
      | some hourParams =>
          { s' with
            tp := (dictGet hourParams "tp").getD s'.tp
            sl := (dictGet hourParams "sl").getD s'.sl
            strategyParams := dictDropTpSl hourParams }
      | none => s'

/-- The body of one iteration of the `while` loop in `_stream_and_trade`
(`trader.py` lines 387-415): a raised exception is caught and logged; an
empty feed read is logged and skipped; a fetched bar strictly newer than
the last stored one is appended and triggers strategy evaluation, trade
execution and the parameter check, in that order; any other fetched bar
(same or older timestamp) is ignored. -/
def tickStep (cfg : StreamConfig) (s : TraderState) (inp : TickInput) :
    TraderState × List Event :=
  if inp.fault then (s, [Event.logError])
  else
    match inp.fetch with
    | none => (s, [Event.warnFeed])
    | some bar =>
      match s.data.getLast? with
      | none => (s, [])
      | some last =>
        if last.time < bar.time then
          let s1 := { s with data := s.data ++ [bar] }
          let r := executeTrades cfg s1
          (checkAndUpdateParams cfg inp.now r.1, r.2)
        else (s, [])

/-- `_stream_and_trade`: run tick iterations over a finite stream of
observations while the wall clock is before the session end time; the
loop exits at the first observation at or past `endTime`. -/
def streamAndTrade (cfg : StreamConfig) (s : TraderState) :
    List TickInput → TraderState × List Event
  | [] => (s, [])
  | inp :: rest =>
    if inp.now < cfg.endTime then
      let r := tickStep cfg s inp
      let rr := streamAndTrade cfg r.1 rest
      (rr.1, r.2 ++ rr.2)
    else (s, [])

/-- `start_trading` (`trader.py` lines 320-336): initialization
(`_log_account_info` / `_load_historical_data`) may fail, in which case
the error is logged and re-raised; otherwise the streaming loop runs; on
every exit path the `finally` block runs `_close_all_positions`, which
flattens and sets `self.position = 0`. -/
def startTrading (cfg : StreamConfig) (init : Except String TraderState)
    (inputs : List TickInput) : Except String TraderState × List Event :=
  match init with
  | .error e => (.error e, [Event.logError, Event.closeAll])
  | .ok s =>
    let r := streamAndTrade cfg s inputs
    (.ok { r.1 with position := 0 }, r.2 ++ [Event.closeAll])

/-! ### Strategy functions (`src/deployer/strategies/entries.py`)

The indicator values produced by the external `pandas_ta` library
(`df.ta.rsi`, `df.ta.bbands`) are inputs of the embedded functions, one
optional value per bar; `none` models the `NaN` a warm-up bar carries.
Comparisons against `none` are false, as every comparison against `NaN`
is in pandas. -/

/-- `close.pct_change().fillna(0)`: relative change between consecutive
closes, 0 on the first bar. -/
def pctChangeAux (prev : ℚ) : List ℚ → List ℚ
  | [] => []
  | x :: xs => (x / prev - 1) :: pctChangeAux x xs

/-- `close.pct_change().fillna(0)`. -/
def pctChange : List ℚ → List ℚ
  | [] => []
  | x :: xs => 0 :: pctChangeAux x xs

/-- Zero out the signal on bars whose hour is not in `allowed_hours`
(the `Restrição de horários` block shared by both strategies). -/
def zeroDisallowed (times : List Nat) (allowed_hours : Option (List Nat))
    (pos : List ℤ) : List ℤ :=
  match allowed_hours with
  | none => pos
  | some hours =>
    List.zipWith (fun t v => if hourOfTime t ∈ hours then v else 0) times pos

/-- `pattern_rsi_trend` (`entries.py` lines 5-46): percentage change and
RSI with `NaN` filled by the value 0, then the `position_type` branch
(`np.where` on the long/short conditions), then the hour restriction.
`rsiRaw` is the series returned by `df.ta.rsi(length=length_rsi)`. -/
def pattern_rsi_trend (closes : List ℚ) (times : List Nat)
    (rsiRaw : List (Option ℚ)) (rsi_low rsi_high : ℚ)
    (allowed_hours : Option (List Nat)) (position_type : String) : List ℤ :=
  let pct := pctChange closes
  let rsi := rsiRaw.map (fun o => o.getD 0)
  let pos :=
    if position_type = "long" then
      List.zipWith (fun p r => if 0 < p ∧ rsi_high < r then (1 : ℤ) else 0) pct rsi
    else if position_type = "short" then
      List.zipWith (fun p r => if p < 0 ∧ r < rsi_low then (-1 : ℤ) else 0) pct rsi
    else
      List.zipWith
        (fun p r =>
          if 0 < p ∧ rsi_high < r then (1 : ℤ)
          else if p < 0 ∧ r < rsi_low then -1 else 0)
        pct rsi
  zeroDisallowed times allowed_hours pos

/-- `a < b` on optional values, false when either side is `NaN`. -/
def optLt (a b : Option ℚ) : Bool :=
  match a, b with
  | some x, some y => decide (x < y)
  | _, _ => false

/-- `a ≤ b` on optional values, false when either side is `NaN`. -/
def optLe (a b : Option ℚ) : Bool :=
  match a, b with
  | some x, some y => decide (x ≤ y)
  | _, _ => false

/-- `Series.shift(+1)`: the previous value, `NaN` on the first bar. -/
def shift1 (xs : List (Option ℚ)) : List (Option ℚ) := none :: xs.dropLast

/-- Python `str.lower()` (ASCII case mapping, which covers the
`position_type` values at issue). -/
def pyLower (s : String) : String := String.mk (s.data.map Char.toLower)

/-- The error message of the invalid `position_type` branch of
`bb_trend`. -/
def bbTrendErr : String := "position_type deve ser long, short ou both"

/-- `bb_trend` (`entries.py` lines 50-98): lower/upper band crossing
conditions `cond1`/`cond2` (comparisons against shifted series), the
`position_type.lower()` branch — note `both` assigns `+1` on `cond1`
then `-1` on `cond2` (the later assignment wins), `long` assigns only
`-1` on `cond2`, `short` assigns only `+1` on `cond1`, anything else
raises `ValueError` — then the hour restriction.  `bbl`/`bbu` are the
band series returned by `df.ta.bbands(length=bb_length, std=std)`. -/
def bb_trend (closes : List ℚ) (times : List Nat)
    (bbl bbu : List (Option ℚ)) (allowed_hours : Option (List Nat))
    (position_type : String) : Except String (List ℤ) :=
  let c := closes.map some
  let cond1 := List.zipWith (fun x y => x && y)
    (List.zipWith optLt c bbl)
    (List.zipWith (fun a b => optLe b a) (shift1 c) (shift1 bbl))
  let cond2 := List.zipWith (fun x y => x && y)
    (List.zipWith (fun a b => optLt b a) c bbu)
    (List.zipWith optLe (shift1 c) (shift1 bbu))
  let pt := pyLower position_type
  let posE : Except String (List ℤ) :=
    if pt = "both" then
      Except.ok (List.zipWith
        (fun c1 c2 => if c2 then (-1 : ℤ) else if c1 then 1 else 0) cond1 cond2)
    else if pt = "long" then
      Except.ok (cond2.map (fun c2 => if c2 then (-1 : ℤ) else 0))
    else if pt = "short" then
      Except.ok (cond1.map (fun c1 => if c1 then (1 : ℤ) else 0))
    else Except.error bbTrendErr
  posE.map (zeroDisallowed times allowed_hours)


/-! ### Volume handling (`trader.py` lines 268-281 and 516-518) -/

/-- Python built-in `round()`: nearest integer, ties to the even
integer. -/
def pyRound (q : ℚ) : ℤ :=
  let f := ⌊q⌋
  let r := q - f
  if r < 1/2 then f
  else if 1/2 < r then f + 1
  else if f % 2 = 0 then f else f + 1

/-- The volume clamp of `_validate_parameters` (`trader.py` lines
268-281): a requested lot below the instrument minimum is raised to the
minimum, one above the maximum is lowered to the maximum. -/
def validateLot (lot volume_min volume_max : ℚ) : ℚ :=
  if lot < volume_min then volume_min
  else if volume_max < lot then volume_max
  else lot

/-- `adjusted_volume = round(self.lot_size / volume_step) * volume_step`
(`trader.py` lines 516-518). -/
def adjustedVolume (lot volume_step : ℚ) : ℚ :=
  (pyRound (lot / volume_step) : ℚ) * volume_step

/-- The volume `_open_position` submits for a requested lot size, after
the clamp applied at initialization and the step rounding applied at
submission. -/
def submittedVolume (lot volume_min volume_max volume_step : ℚ) : ℚ :=
  adjustedVolume (validateLot lot volume_min volume_max) volume_step

/-! ### Concrete fixtures used by the counterexample runs -/

/-- A bar at time `t` with all price columns equal to `c`. -/
def mkBar (t : Nat) (c : ℚ) : Bar :=
  { time := t, openp := c, high := c, low := c, close := c,
    tick_volume := 0, spread := 0, volume := 0 }

/-- A sample strategy-parameter dict. -/
def p0 : Dict := [("x", 1)]

/-- A strategy that signals long on every bar. -/
def onesStrat : List Bar → Dict → List (Option ℤ) :=
  fun data _ => data.map (fun _ => some 1)

/-- A config manager that has parameters only for hour 10. -/
def hour10Lookup : Nat → Option Dict :=
  fun h => if h = 10 then some [("tp", 80), ("sl", 40)] else none

/-- A config manager with no configured hour at all. -/
def noneLookup : Nat → Option Dict := fun _ => none

/-- Session fixture: always-long strategy, parameters configured for
hour 10 only. -/
def cfgOnes : StreamConfig :=
  { strat := onesStrat, configLookup := some hour10Lookup, endTime := 100000 }

/-- Session fixture: always-long strategy, a config manager that knows
no hour. -/
def cfgNoHour : StreamConfig :=
  { strat := onesStrat, configLookup := some noneLookup, endTime := 100000 }

/-- Trader fixture: one stored bar at 09:00, tp 50, sl 30, flat. -/
def s0 : TraderState :=
  { data := [mkBar 32400 10], tp := 50, sl := 30, strategyParams := p0,
    currentHour := 9, position := 0, trades := 0 }

/-- Trader fixture: one stored bar at 17:00, tp 50, sl 30, currently
long. -/
def sLong17 : TraderState :=
  { data := [mkBar 61200 10], tp := 50, sl := 30, strategyParams := p0,
    currentHour := 17, position := 1, trades := 1 }

/-- Trader fixture for the C4 witness: long position, history already
containing a bar at 18:00. -/
def sEnd18 : TraderState :=
  { data := [mkBar 61200 10, mkBar 64800 11], tp := 50, sl := 30,
    strategyParams := p0, currentHour := 17, position := 1, trades := 1 }

end Deployer

deriving instance DecidableEq for Except

namespace Deployer

/-! ### Helper lemmas about list plumbing -/

theorem getElem?_zipWith {α β γ : Type} (f : α → β → γ) :
    ∀ (as : List α) (bs : List β) (i : Nat) (a : α) (b : β),
      as[i]? = some a → bs[i]? = some b →
      (List.zipWith f as bs)[i]? = some (f a b)
  | [], _, _, _, _, h, _ => by simp at h
  | _ :: _, [], _, _, _, _, h => by simp at h
  | a' :: as, b' :: bs, 0, a, b, ha, hb => by
      simp only [List.getElem?_cons_zero, Option.some.injEq] at ha hb
      simp [List.zipWith_cons_cons, ha, hb]
  | a' :: as, b' :: bs, i + 1, a, b, ha, hb => by
      simp only [List.getElem?_cons_succ] at ha hb
      simpa using getElem?_zipWith f as bs i a b ha hb

theorem mem_zipWith {α β γ : Type} {f : α → β → γ} :
    ∀ {as : List α} {bs : List β} {c : γ}, c ∈ List.zipWith f as bs →
      ∃ a b, a ∈ as ∧ b ∈ bs ∧ c = f a b
  | [], _, _, h => by simp at h
  | _ :: _, [], _, h => by simp at h
  | a :: as, b :: bs, c, h => by
      rw [List.zipWith_cons_cons, List.mem_cons] at h
      rcases h with h | h
      · exact ⟨a, b, List.mem_cons_self a as, List.mem_cons_self b bs, h⟩
      · rcases mem_zipWith h with ⟨x, y, hx, hy, rfl⟩
        exact ⟨x, y, List.mem_cons_of_mem a hx, List.mem_cons_of_mem b hy, rfl⟩

theorem ffillAux_getElem? :
    ∀ (xs : List (Option ℤ)) (last : ℤ) (i : Nat) (v : ℤ),
      xs[i]? = some (some v) → (ffillAux last xs)[i]? = some v
  | [], _, _, _, h => by simp at h
  | o :: xs, last, 0, v, h => by
      simp only [List.getElem?_cons_zero, Option.some.injEq] at h
      simp [ffillAux, h]
  | o :: xs, last, i + 1, v, h => by
      simp only [List.getElem?_cons_succ] at h
      simpa [ffillAux] using ffillAux_getElem? xs (o.getD last) i v h

theorem mem_zeroDisallowed {times : List Nat} {ah : Option (List Nat)}
    {pos : List ℤ} {v : ℤ} (h : v ∈ zeroDisallowed times ah pos) :
    v = 0 ∨ v ∈ pos := by
  cases ah with
  | none => exact Or.inr h
  | some hours =>
      rcases mem_zipWith h with ⟨t, w, _, hw, rfl⟩
      split
      · exact Or.inr hw
      · exact Or.inl rfl


theorem zeroDisallowed_getElem?_zero {times : List Nat}
    {ah : Option (List Nat)} {pos : List ℤ} {i : Nat} {t : Nat}
    (ht : times[i]? = some t) (hp : pos[i]? = some 0) :
    (zeroDisallowed times ah pos)[i]? = some 0 := by
  cases ah with
  | none => exact hp
  | some hours =>
      rw [zeroDisallowed, getElem?_zipWith _ times pos i t 0 ht hp]
      simp

/-! ### Helper lemmas about Python rounding -/

theorem le_pyRound {a : ℤ} {q : ℚ} (h : (a : ℚ) ≤ q) : a ≤ pyRound q := by
  have hf : a ≤ ⌊q⌋ := Int.le_floor.mpr h
  unfold pyRound
  dsimp only
  split
  · exact hf
  · split
    · omega
    · split <;> omega

theorem pyRound_le {b : ℤ} {q : ℚ} (h : q ≤ (b : ℚ)) : pyRound q ≤ b := by
  have hfle : ⌊q⌋ ≤ b := by
    have := Int.floor_le_floor h
    simpa using this
  have hsucc : (1 : ℚ) / 2 ≤ q - ⌊q⌋ → ⌊q⌋ + 1 ≤ b := by
    intro hr
    have h0 : (0 : ℚ) < q - ⌊q⌋ := lt_of_lt_of_le (by norm_num) hr
    have : (⌊q⌋ : ℚ) < q := by linarith
    have : (⌊q⌋ : ℚ) < (b : ℚ) := lt_of_lt_of_le this h
    exact_mod_cast Int.add_one_le_iff.mpr (by exact_mod_cast this)
  unfold pyRound
  dsimp only
  split
  · exact hfle
  · split
    · next h1 h2 => exact hsucc (le_of_lt h2)
    · next h1 h2 =>
        have hr : (1 : ℚ) / 2 ≤ q - ⌊q⌋ := le_of_not_lt h1
        split
        · exact hfle
        · exact hsucc hr

theorem abs_pyRound_sub_le (q : ℚ) : |(pyRound q : ℚ) - q| ≤ 1 / 2 := by
  have h0 : (0 : ℚ) ≤ q - ⌊q⌋ := by
    have := Int.floor_le q
    linarith
  have h1 : q - ⌊q⌋ < 1 := by
    have := Int.lt_floor_add_one q
    push_cast at this
    linarith
  unfold pyRound
  dsimp only
  split
  · next hr => rw [abs_le]; constructor <;> linarith
  · split
    · next h1' h2' => rw [abs_le]; push_cast; constructor <;> linarith
    · next h1' h2' =>
        have hr : q - ⌊q⌋ = 1 / 2 := le_antisymm (le_of_not_lt h2') (le_of_not_lt h1')
        split
        · rw [abs_le]; constructor <;> linarith
        · rw [abs_le]; push_cast; constructor <;> linarith

theorem validateLot_mem (lot vmin vmax : ℚ) (h : vmin ≤ vmax) :
    vmin ≤ validateLot lot vmin vmax ∧ validateLot lot vmin vmax ≤ vmax := by
  unfold validateLot
  split
  · exact ⟨le_refl _, h⟩
  · split
    · exact ⟨h, le_refl _⟩
    · next h1 h2 => exact ⟨le_of_not_lt h1, le_of_not_lt h2⟩


/-! ### Claim C8: volume rounding and volume bounds -/

/-- C8 counterexample: with instrument minimum 1, maximum 5 and volume
step 3, a requested lot of 5 passes the initialization clamp unchanged
(it lies inside [1, 5]) but step rounding at submission produces
`round(5/3)*3 = 6`, which exceeds the instrument maximum — the claim
that the submitted volume is never above the maximum is false. -/
theorem C8_counterexample :
    submittedVolume 5 1 5 3 = 6 ∧ ¬ submittedVolume 5 1 5 3 ≤ 5 := by
  constructor
  · norm_num [submittedVolume, adjustedVolume, validateLot, pyRound]
  · norm_num [submittedVolume, adjustedVolume, validateLot, pyRound]

/-- C8 (amended): before submission the requested volume is rounded to a
multiple of the instrument volume step nearest to it (requesting 0.37
with step 0.1 yields 0.4; ties go to the even multiple), and the clamp
to [minimum, maximum] is applied to the requested lot at initialization,
before rounding; the submitted volume therefore stays within the bounds
whenever the instrument minimum and maximum are themselves multiples of
the volume step, but not in general (see the counterexample). -/
theorem C8_volumeRounding :
    adjustedVolume (37 / 100) (1 / 10) = 2 / 5 ∧
    (∀ lot step : ℚ, ∃ k : ℤ, adjustedVolume lot step = k * step) ∧
    (∀ lot step : ℚ, 0 < step → |adjustedVolume lot step - lot| ≤ step / 2) ∧
    (∀ (lot vmin vmax step : ℚ) (a b : ℤ), 0 < step →
      vmin = a * step → vmax = b * step → vmin ≤ vmax →
      vmin ≤ submittedVolume lot vmin vmax step ∧
        submittedVolume lot vmin vmax step ≤ vmax) := by
  refine ⟨?_, ?_, ?_, ?_⟩
  · norm_num [adjustedVolume, pyRound]
  · intro lot step
    exact ⟨pyRound (lot / step), rfl⟩
  · intro lot step hstep
    have hne : step ≠ 0 := ne_of_gt hstep
    have hx : lot / step * step = lot := div_mul_cancel₀ lot hne
    have h1 : adjustedVolume lot step - lot
        = ((pyRound (lot / step) : ℚ) - lot / step) * step := by
      rw [adjustedVolume]
      rw [sub_mul, hx]
    rw [h1, abs_mul, abs_of_pos hstep]
    have h2 := abs_pyRound_sub_le (lot / step)
    calc |(pyRound (lot / step) : ℚ) - lot / step| * step
        ≤ 1 / 2 * step := by
          exact mul_le_mul_of_nonneg_right h2 (le_of_lt hstep)
      _ = step / 2 := by ring
  · intro lot vmin vmax step a b hstep hmin hmax hle
    have hmem := validateLot_mem lot vmin vmax hle
    set c := validateLot lot vmin vmax with hc
    obtain ⟨h1, h2⟩ := hmem
    rw [hmin] at h1
    rw [hmax] at h2
    have hxa : (a : ℚ) ≤ c / step := by
      rw [le_div_iff₀ hstep]
      exact h1
    have hxb : c / step ≤ (b : ℚ) := by
      rw [div_le_iff₀ hstep]
      exact h2
    have ha : a ≤ pyRound (c / step) := le_pyRound hxa
    have hb : pyRound (c / step) ≤ b := pyRound_le hxb
    have hsub : submittedVolume lot vmin vmax step = (pyRound (c / step) : ℚ) * step := rfl
    constructor
    · rw [hsub, hmin]
      exact mul_le_mul_of_nonneg_right (by exact_mod_cast ha) (le_of_lt hstep)
    · rw [hsub, hmax]
      exact mul_le_mul_of_nonneg_right (by exact_mod_cast hb) (le_of_lt hstep)

/-- C8 witness: the amended bounds at concrete instruments — step 1/2
with requested lot 1 stays within a quarter step of the request, and
with minimum 1 = 2·(1/2) and maximum 2 = 4·(1/2) a requested lot of 7/10
is submitted inside [1, 2]. -/
theorem C8_witness :
    |adjustedVolume 1 (1 / 2) - 1| ≤ (1 / 2 : ℚ) / 2 ∧
    (1 : ℚ) ≤ submittedVolume (7 / 10) 1 2 (1 / 2) ∧
      submittedVolume (7 / 10) 1 2 (1 / 2) ≤ 2 :=
  ⟨C8_volumeRounding.2.2.1 1 (1 / 2) (by norm_num),
   C8_volumeRounding.2.2.2 (7 / 10) 1 2 (1 / 2) 2 4 (by norm_num)
     (by norm_num) (by norm_num) (by norm_num)⟩


/-! ### Claim C9: per-tick exception isolation and forced flatten -/

/-- C9: an exception inside a tick is caught at the tick boundary,
logged, and the loop goes on processing the remaining ticks from an
unchanged state; the loop exits exactly when the wall clock reaches the
session end time; and every termination path of `start_trading` — normal
completion as well as a re-raised initialization error — runs the
close-all-positions routine last. -/
theorem C9_tickFaultIsolationAndFlatten :
    (∀ (cfg : StreamConfig) (s : TraderState) (inp : TickInput)
        (rest : List TickInput), inp.fault = true → inp.now < cfg.endTime →
      streamAndTrade cfg s (inp :: rest) =
        ((streamAndTrade cfg s rest).1,
          Event.logError :: (streamAndTrade cfg s rest).2)) ∧
    (∀ (cfg : StreamConfig) (s : TraderState) (inp : TickInput)
        (rest : List TickInput), ¬ inp.now < cfg.endTime →
      streamAndTrade cfg s (inp :: rest) = (s, [])) ∧
    (∀ (cfg : StreamConfig) (init : Except String TraderState)
        (inputs : List TickInput),
      (startTrading cfg init inputs).2.getLast? = some Event.closeAll) := by
  refine ⟨?_, ?_, ?_⟩
  · intro cfg s inp rest hfault hlt
    simp [streamAndTrade, tickStep, hfault, hlt]
  · intro cfg s inp rest hge
    simp [streamAndTrade, hge]
  · intro cfg init inputs
    cases init with
    | error e => simp [startTrading]
    | ok s => simp [startTrading, List.getLast?_concat]

/-- C9 witness: a faulting tick before the end time is logged and the
session continues; a tick at the end time stops the loop; the trace of a
completed session ends with the forced flatten. -/
theorem C9_witness :
    streamAndTrade cfgOnes s0 [⟨32500, none, true⟩] = (s0, [Event.logError]) ∧
    streamAndTrade cfgOnes s0 [⟨200000, none, false⟩] = (s0, []) ∧
    (startTrading cfgOnes (Except.ok s0) []).2.getLast? = some Event.closeAll :=
  ⟨C9_tickFaultIsolationAndFlatten.1 cfgOnes s0 ⟨32500, none, true⟩ [] rfl
      (by norm_num [cfgOnes]),
   C9_tickFaultIsolationAndFlatten.2.1 cfgOnes s0 ⟨200000, none, false⟩ []
      (by norm_num [cfgOnes]),
   C9_tickFaultIsolationAndFlatten.2.2 cfgOnes (Except.ok s0) []⟩

/-! ### Claim C1: the single-position invariant -/

/-- C1: the claim fails on the code.  Two consecutive completed bars
whose evaluated signal is +1 make `_execute_trades` call
`_open_position` twice in a row: the session trace contains two open
submissions with no close intent between them — the first position has
not been closed (the engine emits no close order at all during
streaming; the only close is the final `_close_all_positions`). -/
theorem C1_code_bug :
    (startTrading cfgOnes (Except.ok s0)
      [⟨32500, some (mkBar 32460 11), false⟩,
       ⟨32560, some (mkBar 32520 12), false⟩]).2 =
    [Event.openIntent 1 50 30 p0, Event.openIntent 1 50 30 p0,
     Event.closeAll] := by
  norm_num [startTrading, streamAndTrade, tickStep, executeTrades, processStrategy,
    ffill, ffillAux, openPosition, checkAndUpdateParams, hourOfTime, cfgOnes, s0,
    mkBar, onesStrat, hour10Lookup, p0, dictGet, dictDropTpSl, List.lookup]


/-! ### Helper lemmas about the tick body -/

theorem tickStep_newBar (cfg : StreamConfig) (s : TraderState)
    (inp : TickInput) (bar last : Bar) (hfault : inp.fault = false)
    (hfetch : inp.fetch = some bar) (hlast : s.data.getLast? = some last)
    (hnew : last.time < bar.time) :
    tickStep cfg s inp =
      (checkAndUpdateParams cfg inp.now
         (executeTrades cfg { s with data := s.data ++ [bar] }).1,
       (executeTrades cfg { s with data := s.data ++ [bar] }).2) := by
  simp [tickStep, hfault, hfetch, hlast, hnew]

theorem executeTrades_preserves (cfg : StreamConfig) (s : TraderState) :
    (executeTrades cfg s).1.tp = s.tp ∧ (executeTrades cfg s).1.sl = s.sl ∧
    (executeTrades cfg s).1.strategyParams = s.strategyParams ∧
    (executeTrades cfg s).1.currentHour = s.currentHour ∧
    (executeTrades cfg s).1.data = s.data := by
  by_cases h : (processStrategy cfg s).getLast?.getD 0 = 0
  · simp [executeTrades, openPosition, h]
  · simp [executeTrades, openPosition, h]

theorem executeTrades_events (cfg : StreamConfig) (s : TraderState) :
    (executeTrades cfg s).2 = [] ∨
    (executeTrades cfg s).2 =
      [Event.openIntent ((processStrategy cfg s).getLast?.getD 0)
        s.tp s.sl s.strategyParams] := by
  by_cases h : (processStrategy cfg s).getLast?.getD 0 = 0
  · exact Or.inl (by simp [executeTrades, h])
  · exact Or.inr (by simp [executeTrades, openPosition, h])

theorem checkAndUpdateParams_found (cfg : StreamConfig) (now : Nat)
    (s : TraderState) (f : Nat → Option Dict) (hp : Dict)
    (hcfg : cfg.configLookup = some f)
    (hhour : hourOfTime now ≠ s.currentHour)
    (hf : f (hourOfTime now) = some hp) :
    checkAndUpdateParams cfg now s =
      { s with currentHour := hourOfTime now,
               tp := (dictGet hp "tp").getD s.tp,
               sl := (dictGet hp "sl").getD s.sl,
               strategyParams := dictDropTpSl hp } := by
  unfold checkAndUpdateParams
  simp [hhour, hcfg, hf]

theorem checkAndUpdateParams_notFound (cfg : StreamConfig) (now : Nat)
    (s : TraderState) (f : Nat → Option Dict)
    (hcfg : cfg.configLookup = some f)
    (hhour : hourOfTime now ≠ s.currentHour)
    (hf : f (hourOfTime now) = none) :
    checkAndUpdateParams cfg now s = { s with currentHour := hourOfTime now } := by
  unfold checkAndUpdateParams
  simp [hhour, hcfg, hf]

/-! ### Claim C2: hour-boundary parameter swap timing -/

/-- C2 counterexample: with `{tp:80, sl:40}` configured for hour 10 and
active parameters `{tp:50, sl:30}` at hour 9, the first new bar
processed after the wall clock reaches hour 10 (the second event below,
from the tick at `now = 36010`, i.e. 10:00:10) is still executed with
the old tuple 50/30; only the third evaluation uses 80/40 — the claim
that the very first post-boundary evaluation uses the new tuple is
false. -/
theorem C2_counterexample :
    (streamAndTrade cfgOnes s0
      [⟨32500, some (mkBar 32460 11), false⟩,
       ⟨36010, some (mkBar 36000 12), false⟩,
       ⟨36070, some (mkBar 36060 13), false⟩]).2 =
      [Event.openIntent 1 50 30 p0, Event.openIntent 1 50 30 p0,
       Event.openIntent 1 80 40 []] ∧
    s0.currentHour = 9 ∧ hourOfTime 36010 = 10 ∧
    hour10Lookup 10 = some [("tp", 80), ("sl", 40)] ∧ (50 : ℚ) ≠ 80 := by
  refine ⟨?_, rfl, rfl, rfl, by norm_num⟩
  norm_num [streamAndTrade, tickStep, executeTrades, processStrategy,
    ffill, ffillAux, openPosition, checkAndUpdateParams, hourOfTime, cfgOnes, s0,
    mkBar, onesStrat, hour10Lookup, p0, dictGet, dictDropTpSl, List.lookup]
  decide

/-- C2 (amended): the engine checks the hour boundary only after
processing a new bar: within the tick that crosses the boundary, every
order submitted still carries the pre-change take-profit /stop-loss /
strategy-parameter tuple, and the new hour has its tuple installed only
at the end of that tick, so it takes effect from the next evaluation
onward. -/
theorem C2_paramSwapAfterEvaluation (cfg : StreamConfig) (s : TraderState)
    (inp : TickInput) (bar last : Bar) (f : Nat → Option Dict) (hp : Dict)
    (hfault : inp.fault = false) (hfetch : inp.fetch = some bar)
    (hlast : s.data.getLast? = some last) (hnew : last.time < bar.time)
    (hcfg : cfg.configLookup = some f)
    (hhour : hourOfTime inp.now ≠ s.currentHour)
    (hf : f (hourOfTime inp.now) = some hp) :
    (∀ d t l q, Event.openIntent d t l q ∈ (tickStep cfg s inp).2 →
        t = s.tp ∧ l = s.sl ∧ q = s.strategyParams) ∧
    (tickStep cfg s inp).1.tp = (dictGet hp "tp").getD s.tp ∧
    (tickStep cfg s inp).1.sl = (dictGet hp "sl").getD s.sl ∧
    (tickStep cfg s inp).1.strategyParams = dictDropTpSl hp := by
  have hts := tickStep_newBar cfg s inp bar last hfault hfetch hlast hnew
  have hpres := executeTrades_preserves cfg { s with data := s.data ++ [bar] }
  have hhour2 : hourOfTime inp.now ≠
      (executeTrades cfg { s with data := s.data ++ [bar] }).1.currentHour := by
    rw [hpres.2.2.2.1]
    exact hhour
  have hfound := checkAndUpdateParams_found cfg inp.now
    (executeTrades cfg { s with data := s.data ++ [bar] }).1 f hp hcfg hhour2 hf
  refine ⟨?_, ?_, ?_, ?_⟩
  · intro d t l q hmem
    rw [hts] at hmem
    rcases executeTrades_events cfg { s with data := s.data ++ [bar] } with hev | hev <;>
      rw [hev] at hmem
    · simp at hmem
    · simp only [List.mem_singleton, Event.openIntent.injEq] at hmem
      exact ⟨hmem.2.1, hmem.2.2.1, hmem.2.2.2⟩
  · rw [hts]
    simp only [hfound]
    rw [hpres.1]
  · rw [hts]
    simp only [hfound]
    rw [hpres.2.1]
  · rw [hts]
    simp only [hfound]

/-- C2 witness: the amended behavior at the concrete boundary tick of
the counterexample session — the open order of the boundary tick uses
tp 50 / sl 30 / params `p0`, and afterwards the state holds tp 80 /
sl 40 with empty strategy parameters. -/
theorem C2_witness :
    (∀ d t l q, Event.openIntent d t l q ∈
        (tickStep cfgOnes s0 ⟨36010, some (mkBar 36000 12), false⟩).2 →
        t = 50 ∧ l = 30 ∧ q = p0) ∧
    (tickStep cfgOnes s0 ⟨36010, some (mkBar 36000 12), false⟩).1.tp = 80 ∧
    (tickStep cfgOnes s0 ⟨36010, some (mkBar 36000 12), false⟩).1.sl = 40 ∧
    (tickStep cfgOnes s0 ⟨36010, some (mkBar 36000 12), false⟩).1.strategyParams = [] :=
  C2_paramSwapAfterEvaluation cfgOnes s0 ⟨36010, some (mkBar 36000 12), false⟩
    (mkBar 36000 12) (mkBar 32400 10) hour10Lookup [("tp", 80), ("sl", 40)]
    rfl rfl rfl (by norm_num [mkBar]) rfl (by decide) rfl

/-! ### Claim C3: same-timestamp and out-of-order bars -/

/-- C3 counterexample: a fetched bar carrying the same timestamp as the
last stored bar but corrected values (close 99 instead of 10) is ignored
entirely — the stored history is NOT overwritten with the corrected
values (the state is returned unchanged), refuting the claimed
overwrite; no evaluation cycle is triggered. -/
theorem C3_counterexample :
    tickStep cfgOnes s0 ⟨32500, some (mkBar 32400 99), false⟩ = (s0, []) ∧
    s0.data = [mkBar 32400 10] ∧ (mkBar 32400 99).time = (mkBar 32400 10).time ∧
    (mkBar 32400 99).close ≠ (mkBar 32400 10).close := by
  refine ⟨?_, rfl, rfl, by norm_num [mkBar]⟩
  norm_num [tickStep, s0, mkBar]

/-- C3 (amended): a fetched bar whose timestamp is not strictly newer
than the last stored bar — equal (a correction of the still-forming bar)
or older (out of order) — is ignored without modifying the stored
history and without triggering an evaluation/execution cycle; in
particular an equal-timestamp correction is dropped, not stored. -/
theorem C3_equalOrOlderBarIgnored (cfg : StreamConfig) (s : TraderState)
    (inp : TickInput) (bar last : Bar) (hfault : inp.fault = false)
    (hfetch : inp.fetch = some bar) (hlast : s.data.getLast? = some last)
    (hold : ¬ last.time < bar.time) :
    tickStep cfg s inp = (s, []) := by
  simp [tickStep, hfault, hfetch, hlast, hold]

/-- C3 witness: a strictly older bar arriving while the trader holds a
17:00 bar is dropped with the state unchanged. -/
theorem C3_witness :
    tickStep cfgOnes sLong17 ⟨61300, some (mkBar 32400 7), false⟩ =
      (sLong17, []) :=
  C3_equalOrOlderBarIgnored cfgOnes sLong17 ⟨61300, some (mkBar 32400 7), false⟩
    (mkBar 32400 7) (mkBar 61200 10) rfl rfl rfl (by norm_num [mkBar])


/-! ### Claim C4: session-end zeroing and the missing close intent -/

/-- C4 counterexample: the trader is LONG (`position = 1`) and the new
bar is timestamped 18:00, so its evaluated signal is forced to 0 — yet
the tick emits no event at all: no close intent is submitted for the
open position (the state changes only by storing the bar), refuting the
claimed close intent. -/
theorem C4_counterexample :
    tickStep cfgOnes sLong17 ⟨64700, some (mkBar 64800 11), false⟩ =
      ({ sLong17 with data := sLong17.data ++ [mkBar 64800 11] }, []) ∧
    sLong17.position = 1 ∧ hourOfTime 64800 = 18 := by
  refine ⟨?_, rfl, rfl⟩
  norm_num [tickStep, executeTrades, processStrategy, ffill, ffillAux,
    openPosition, checkAndUpdateParams, hourOfTime, cfgOnes, sLong17, mkBar,
    onesStrat, p0]

/-- C4 (amended): every bar at hour ≥ 18 has its evaluated signal forced
to 0 irrespective of the strategy raw output, but a zero signal produces
no order activity whatsoever: `_execute_trades` acts only on non-zero
signals, so no close intent is emitted for an open LONG/SHORT position
(positions are flattened only by `_close_all_positions` when
`start_trading` terminates). -/
theorem C4_sessionEndZeroNoClose :
    (∀ (cfg : StreamConfig) (s : TraderState) (i : Nat) (b : Bar)
        (p : Option ℤ), s.data[i]? = some b →
        (cfg.strat s.data s.strategyParams)[i]? = some p →
        18 ≤ hourOfTime b.time → (processStrategy cfg s)[i]? = some 0) ∧
    (∀ (cfg : StreamConfig) (s : TraderState),
        (processStrategy cfg s).getLast?.getD 0 = 0 →
        executeTrades cfg s = (s, [])) := by
  constructor
  · intro cfg s i b p hb hp hh
    unfold processStrategy
    apply ffillAux_getElem?
    rw [getElem?_zipWith _ s.data _ i b p hb hp]
    simp [hh]
  · intro cfg s h
    simp [executeTrades, h]

/-- C4 witness: on the stored history ending with an 18:00 bar the
prepared signal at that bar is 0 even though the strategy emits +1
everywhere, and trade execution does nothing. -/
theorem C4_witness :
    (processStrategy cfgOnes sEnd18)[1]? = some 0 ∧
    executeTrades cfgOnes sEnd18 = (sEnd18, []) :=
  ⟨C4_sessionEndZeroNoClose.1 cfgOnes sEnd18 1 (mkBar 64800 11) (some 1)
      rfl rfl (by decide),
   C4_sessionEndZeroNoClose.2 cfgOnes sEnd18 (by decide)⟩

/-! ### Claim C5: behavior in an hour with no configured parameters -/

/-- C5 counterexample: the trader crosses into hour 10 under a config
manager that has no parameters for any hour; the engine nevertheless
emits an open intent on that boundary tick AND keeps emitting open
intents on later ticks (second event) while still in the unconfigured
hour — refuting the claim that it stops emitting new open intents until
parameters are found. -/
theorem C5_counterexample :
    (streamAndTrade cfgNoHour s0
      [⟨36010, some (mkBar 36000 11), false⟩,
       ⟨36070, some (mkBar 36060 12), false⟩]).2 =
      [Event.openIntent 1 50 30 p0, Event.openIntent 1 50 30 p0] ∧
    noneLookup 10 = none ∧ s0.currentHour = 9 ∧ hourOfTime 36010 = 10 := by
  refine ⟨?_, rfl, rfl, rfl⟩
  norm_num [streamAndTrade, tickStep, executeTrades, processStrategy, ffill,
    ffillAux, openPosition, checkAndUpdateParams, hourOfTime, cfgNoHour, s0,
    mkBar, onesStrat, noneLookup, p0]

/-- C5 (amended): when the wall clock enters an hour for which the
config manager has no parameters, the engine only logs: it records the
new hour, keeps the previous take-profit/stop-loss/strategy-parameter
tuple, and the tick submits exactly the orders the strategy evaluation
dictates — open intents continue to be emitted under the stale
parameters rather than being suppressed. -/
theorem C5_unconfiguredHourKeepsTrading (cfg : StreamConfig)
    (s : TraderState) (inp : TickInput) (bar last : Bar)
    (f : Nat → Option Dict) (hfault : inp.fault = false)
    (hfetch : inp.fetch = some bar) (hlast : s.data.getLast? = some last)
    (hnew : last.time < bar.time) (hcfg : cfg.configLookup = some f)
    (hhour : hourOfTime inp.now ≠ s.currentHour)
    (hf : f (hourOfTime inp.now) = none) :
    (tickStep cfg s inp).1.tp = s.tp ∧ (tickStep cfg s inp).1.sl = s.sl ∧
    (tickStep cfg s inp).1.strategyParams = s.strategyParams ∧
    (tickStep cfg s inp).1.currentHour = hourOfTime inp.now ∧
    (tickStep cfg s inp).2 =
      (executeTrades cfg { s with data := s.data ++ [bar] }).2 := by
  have hts := tickStep_newBar cfg s inp bar last hfault hfetch hlast hnew
  have hpres := executeTrades_preserves cfg { s with data := s.data ++ [bar] }
  have hhour2 : hourOfTime inp.now ≠
      (executeTrades cfg { s with data := s.data ++ [bar] }).1.currentHour := by
    rw [hpres.2.2.2.1]
    exact hhour
  have hnf := checkAndUpdateParams_notFound cfg inp.now
    (executeTrades cfg { s with data := s.data ++ [bar] }).1 f hcfg hhour2 hf
  rw [hts]
  simp only [hnf]
  exact ⟨hpres.1, hpres.2.1, hpres.2.2.1, by simp, by simp⟩

/-- C5 witness: the amended behavior at the concrete boundary tick of
the counterexample session — parameters stay 50/30/`p0`, the hour is
recorded, and the tick trace equals the trade-execution trace (which
contains an open intent). -/
theorem C5_witness :
    (tickStep cfgNoHour s0 ⟨36010, some (mkBar 36000 11), false⟩).1.tp = 50 ∧
    (tickStep cfgNoHour s0 ⟨36010, some (mkBar 36000 11), false⟩).1.sl = 30 ∧
    (tickStep cfgNoHour s0
        ⟨36010, some (mkBar 36000 11), false⟩).1.strategyParams = p0 ∧
    (tickStep cfgNoHour s0
        ⟨36010, some (mkBar 36000 11), false⟩).1.currentHour = 10 ∧
    (tickStep cfgNoHour s0 ⟨36010, some (mkBar 36000 11), false⟩).2 =
      (executeTrades cfgNoHour
        { s0 with data := s0.data ++ [mkBar 36000 11] }).2 :=
  C5_unconfiguredHourKeepsTrading cfgNoHour s0
    ⟨36010, some (mkBar 36000 11), false⟩ (mkBar 36000 11) (mkBar 32400 10)
    noneLookup rfl rfl rfl (by norm_num [mkBar]) rfl (by decide) rfl


/-! ### Claim C6: which sign each position type suppresses -/

/-- C6 counterexample: `bb_trend` called with `position_type = "long"`
on a window whose second close crosses above the upper band emits a `-1`
(short) signal on that bar — refuting the claim that `"long"` never
yields `-1`. -/
theorem C6_counterexample :
    bb_trend [10, 20] [32400, 32460] [some 5, some 5] [some 15, some 15]
        none "long" = Except.ok [0, -1] ∧
    (-1 : ℤ) ∈ [(0 : ℤ), -1] := by
  constructor
  · norm_num [bb_trend, optLt, optLe, shift1, zeroDisallowed, pyLower]
    decide
  · decide

/-- C6 (amended): `pattern_rsi_trend` behaves as claimed
(`"long"` never emits `-1`, `"short"` never emits `+1`), but `bb_trend`
maps the crossing conditions to the opposite directions: with
`"long"` it never emits `+1` (only `-1` on the upper-band crossing) and
with `"short"` it never emits `-1` (only `+1` on the lower-band
crossing). -/
theorem C6_positionTypeDirections :
    (∀ (closes : List ℚ) (times : List Nat) (rsiRaw : List (Option ℚ))
        (lo hi : ℚ) (ah : Option (List Nat)) (v : ℤ),
        v ∈ pattern_rsi_trend closes times rsiRaw lo hi ah "long" →
        v ≠ -1) ∧
    (∀ (closes : List ℚ) (times : List Nat) (rsiRaw : List (Option ℚ))
        (lo hi : ℚ) (ah : Option (List Nat)) (v : ℤ),
        v ∈ pattern_rsi_trend closes times rsiRaw lo hi ah "short" →
        v ≠ 1) ∧
    (∀ (closes : List ℚ) (times : List Nat) (bbl bbu : List (Option ℚ))
        (ah : Option (List Nat)) (out : List ℤ) (v : ℤ),
        bb_trend closes times bbl bbu ah "long" = Except.ok out →
        v ∈ out → v ≠ 1) ∧
    (∀ (closes : List ℚ) (times : List Nat) (bbl bbu : List (Option ℚ))
        (ah : Option (List Nat)) (out : List ℤ) (v : ℤ),
        bb_trend closes times bbl bbu ah "short" = Except.ok out →
        v ∈ out → v ≠ -1) := by
  refine ⟨?_, ?_, ?_, ?_⟩
  · intro closes times rsiRaw lo hi ah v hv
    simp only [pattern_rsi_trend, if_true] at hv
    rcases mem_zeroDisallowed hv with rfl | hmem
    · decide
    · rcases mem_zipWith hmem with ⟨p, r, _, _, rfl⟩
      split <;> decide
  · intro closes times rsiRaw lo hi ah v hv
    simp only [pattern_rsi_trend, if_true] at hv
    rcases mem_zeroDisallowed hv with rfl | hmem
    · decide
    · rcases mem_zipWith hmem with ⟨p, r, _, _, rfl⟩
      split <;> decide
  · intro closes times bbl bbu ah out v hok hv
    simp only [bb_trend] at hok
    rw [if_neg (by decide : ¬pyLower "long" = "both"),
        if_pos (by decide : pyLower "long" = "long")] at hok
    simp only [Except.map, Except.ok.injEq] at hok
    subst hok
    rcases mem_zeroDisallowed hv with rfl | hmem
    · decide
    · rcases List.mem_map.mp hmem with ⟨c2, _, rfl⟩
      cases c2 <;> decide
  · intro closes times bbl bbu ah out v hok hv
    simp only [bb_trend] at hok
    rw [if_neg (by decide : ¬pyLower "short" = "both"),
        if_neg (by decide : ¬pyLower "short" = "long"),
        if_pos (by decide : pyLower "short" = "short")] at hok
    simp only [Except.map, Except.ok.injEq] at hok
    subst hok
    rcases mem_zeroDisallowed hv with rfl | hmem
    · decide
    · rcases List.mem_map.mp hmem with ⟨c1, _, rfl⟩
      cases c1 <;> decide

/-- C6 witness: the four suppression facts applied on concrete windows
where the respective allowed signal does fire. -/
theorem C6_witness :
    ((1 : ℤ) ∈ pattern_rsi_trend [10, 11] [32400, 32460] [some 0, some 80]
        30 70 none "long" ∧ (1 : ℤ) ≠ -1) ∧
    ((-1 : ℤ) ∈ pattern_rsi_trend [10, 9] [32400, 32460] [some 20, some 20]
        30 70 none "short" ∧ (-1 : ℤ) ≠ 1) ∧
    ((-1 : ℤ) ∈ [(0 : ℤ), -1] ∧ (-1 : ℤ) ≠ 1) ∧
    ((1 : ℤ) ∈ [(0 : ℤ), 1] ∧ (1 : ℤ) ≠ -1) := by
  have h1 : pattern_rsi_trend [10, 11] [32400, 32460] [some 0, some 80]
      30 70 none "long" = [0, 1] := by
    norm_num [pattern_rsi_trend, pctChange, pctChangeAux, zeroDisallowed]
  have hm1 : (1 : ℤ) ∈ pattern_rsi_trend [10, 11] [32400, 32460]
      [some 0, some 80] 30 70 none "long" := by
    rw [h1]
    decide
  have h2 : pattern_rsi_trend [10, 9] [32400, 32460] [some 20, some 20]
      30 70 none "short" = [0, -1] := by
    norm_num [pattern_rsi_trend, pctChange, pctChangeAux, zeroDisallowed]
    decide
  have hm2 : (-1 : ℤ) ∈ pattern_rsi_trend [10, 9] [32400, 32460]
      [some 20, some 20] 30 70 none "short" := by
    rw [h2]
    decide
  have h3 : bb_trend [10, 20] [32400, 32460] [some 5, some 5]
      [some 15, some 15] none "long" = Except.ok [0, -1] := by
    norm_num [bb_trend, optLt, optLe, shift1, zeroDisallowed, pyLower]
    decide
  have h4 : bb_trend [20, 10] [32400, 32460] [some 15, some 15]
      [some 25, some 25] none "short" = Except.ok [0, 1] := by
    norm_num [bb_trend, optLt, optLe, shift1, zeroDisallowed, pyLower]
    decide
  refine ⟨⟨hm1, ?_⟩, ⟨hm2, ?_⟩, ⟨by decide, ?_⟩, ⟨by decide, ?_⟩⟩
  · exact C6_positionTypeDirections.1 [10, 11] [32400, 32460]
      [some 0, some 80] 30 70 none 1 hm1
  · exact C6_positionTypeDirections.2.1 [10, 9] [32400, 32460]
      [some 20, some 20] 30 70 none (-1) hm2
  · exact C6_positionTypeDirections.2.2.1 [10, 20] [32400, 32460]
      [some 5, some 5] [some 15, some 15] none [0, -1] (-1) h3 (by decide)
  · exact C6_positionTypeDirections.2.2.2 [20, 10] [32400, 32460]
      [some 15, some 15] [some 25, some 25] none [0, 1] 1 h4 (by decide)

/-! ### Claim C10: invalid position_type strings -/

/-- C10 counterexample: the string `"LONG"` is outside
`{"long", "short", "both"}`, yet `bb_trend` does not raise — it
lowercases the value first and returns a normal signal series. -/
theorem C10_counterexample :
    bb_trend [10, 20] [32400, 32460] [some 5, some 5] [some 15, some 15]
        none "LONG" = Except.ok [0, -1] ∧
    "LONG" ≠ "long" ∧ "LONG" ≠ "short" ∧ "LONG" ≠ "both" := by
  refine ⟨?_, by decide, by decide, by decide⟩
  norm_num [bb_trend, optLt, optLe, shift1, zeroDisallowed, pyLower]
  decide

/-- C10 (amended): `bb_trend` raises `ValueError` exactly for the
position types whose lowercased form is outside
`{"long", "short", "both"}` (case variants such as `"LONG"` are
accepted), while `pattern_rsi_trend` compares case-sensitively and
treats every value other than exactly `"long"` or `"short"` — including
case variants of them — as `"both"`, which may emit both signal
directions. -/
theorem C10_invalidPositionType :
    (∀ (pt : String) (closes : List ℚ) (times : List Nat)
        (bbl bbu : List (Option ℚ)) (ah : Option (List Nat)),
        pyLower pt ≠ "both" → pyLower pt ≠ "long" → pyLower pt ≠ "short" →
        bb_trend closes times bbl bbu ah pt = Except.error bbTrendErr) ∧
    (∀ (pt : String) (closes : List ℚ) (times : List Nat)
        (rsiRaw : List (Option ℚ)) (lo hi : ℚ) (ah : Option (List Nat)),
        pt ≠ "long" → pt ≠ "short" →
        pattern_rsi_trend closes times rsiRaw lo hi ah pt =
          pattern_rsi_trend closes times rsiRaw lo hi ah "both") := by
  constructor
  · intro pt closes times bbl bbu ah h1 h2 h3
    simp only [bb_trend]
    rw [if_neg h1, if_neg h2, if_neg h3]
    rfl
  · intro pt closes times rsiRaw lo hi ah h1 h2
    simp only [pattern_rsi_trend]
    rw [if_neg h1, if_neg h2,
        if_neg (by decide : ¬("both" : String) = "long"),
        if_neg (by decide : ¬("both" : String) = "short")]

/-- C10 witness: `"invalid"` makes `bb_trend` raise, and `"BOTH"`
(not a case-sensitive match of long/short) makes `pattern_rsi_trend`
fall back to the both-sided branch. -/
theorem C10_witness :
    bb_trend [1] [0] [none] [none] none "invalid" = Except.error bbTrendErr ∧
    pattern_rsi_trend [1] [0] [none] 30 70 none "BOTH" =
      pattern_rsi_trend [1] [0] [none] 30 70 none "both" :=
  ⟨C10_invalidPositionType.1 "invalid" [1] [0] [none] [none] none
      (by decide) (by decide) (by decide),
   C10_invalidPositionType.2 "BOTH" [1] [0] [none] 30 70 none
      (by decide) (by decide)⟩


/-! ### Claim C7: indicator warm-up bars -/

theorem zeroDisallowed_none (times : List Nat) (pos : List ℤ) :
    zeroDisallowed times none pos = pos := rfl

theorem shift1_getElem?_isSome (xs : List (Option ℚ)) {i : Nat}
    (h : i < xs.length) : ∃ w, (shift1 xs)[i]? = some w := by
  have hlen : xs.length ≤ (shift1 xs).length := by
    simp only [shift1, List.length_cons, List.length_dropLast]
    omega
  exact ⟨_, List.getElem?_eq_getElem (lt_of_lt_of_le h hlen)⟩

/-- C7 counterexample: on the window `[10, 9]` the second bar is inside
the RSI warm-up period (`df.ta.rsi` is `NaN` there), yet
`pattern_rsi_trend` with `position_type = "short"`, `rsi_low = 30`
assigns it the signal `-1`, not the neutral 0: `.fillna(0)` turns the
undefined RSI into the value 0, which satisfies `rsi < rsi_low`. -/
theorem C7_counterexample :
    pattern_rsi_trend [10, 9] [32400, 32460] [none, none] 30 70 none
        "short" = [0, -1] ∧ (-1 : ℤ) ≠ 0 := by
  constructor
  · norm_num [pattern_rsi_trend, pctChange, pctChangeAux, zeroDisallowed]
    decide
  · decide

/-- C7 (amended): `bb_trend` does treat warm-up bars as neutral — any
bar whose band values are still undefined gets signal 0 for every
accepted `position_type`; `pattern_rsi_trend`, however, replaces an
undefined RSI by the value 0 rather than by a neutral signal: a warm-up
bar can never fire the long condition (for a non-negative `rsi_high`),
but it fires the short condition, yielding `-1` instead of 0, exactly
when the bar's price change is negative and `rsi_low` is positive. -/
theorem C7_warmupSignals :
    (∀ (closes : List ℚ) (times : List Nat) (bbl bbu : List (Option ℚ))
        (ah : Option (List Nat)) (pt : String) (out : List ℤ) (i : Nat)
        (x : ℚ) (t : Nat),
        bb_trend closes times bbl bbu ah pt = Except.ok out →
        closes[i]? = some x → times[i]? = some t →
        bbl[i]? = some none → bbu[i]? = some none →
        out[i]? = some 0) ∧
    (∀ (closes : List ℚ) (times : List Nat) (rsiRaw : List (Option ℚ))
        (lo hi : ℚ) (ah : Option (List Nat)) (i : Nat) (p : ℚ) (t : Nat),
        0 ≤ hi → (pctChange closes)[i]? = some p →
        rsiRaw[i]? = some none → times[i]? = some t →
        (pattern_rsi_trend closes times rsiRaw lo hi ah "long")[i]? =
          some 0) ∧
    (∀ (closes : List ℚ) (times : List Nat) (rsiRaw : List (Option ℚ))
        (lo hi : ℚ) (i : Nat) (p : ℚ) (t : Nat),
        (pctChange closes)[i]? = some p → rsiRaw[i]? = some none →
        times[i]? = some t →
        (pattern_rsi_trend closes times rsiRaw lo hi none "short")[i]? =
          some (if p < 0 ∧ 0 < lo then -1 else 0)) := by
  refine ⟨?_, ?_, ?_⟩
  · intro closes times bbl bbu ah pt out i x t hok hx ht hbbl hbbu
    have hibbl : i < bbl.length := (List.getElem?_eq_some.mp hbbl).1
    have hibbu : i < bbu.length := (List.getElem?_eq_some.mp hbbu).1
    have hic : i < closes.length := (List.getElem?_eq_some.mp hx).1
    have hc : (closes.map some)[i]? = some (some x) := by
      rw [List.getElem?_map, hx]
      rfl
    have hmaplen : i < (closes.map some).length := by simpa using hic
    obtain ⟨w1, hw1⟩ := shift1_getElem?_isSome (closes.map some) hmaplen
    obtain ⟨w2, hw2⟩ := shift1_getElem?_isSome bbl hibbl
    obtain ⟨w3, hw3⟩ := shift1_getElem?_isSome bbu hibbu
    have hcond1 : (List.zipWith (fun x y => x && y)
        (List.zipWith optLt (closes.map some) bbl)
        (List.zipWith (fun a b => optLe b a) (shift1 (closes.map some))
          (shift1 bbl)))[i]? = some false := by
      rw [getElem?_zipWith (fun x y => x && y) _ _ i _ _
        (getElem?_zipWith optLt _ _ i _ _ hc hbbl)
        (getElem?_zipWith (fun a b => optLe b a) _ _ i _ _ hw1 hw2)]
      simp [optLt]
    have hcond2 : (List.zipWith (fun x y => x && y)
        (List.zipWith (fun a b => optLt b a) (closes.map some) bbu)
        (List.zipWith optLe (shift1 (closes.map some))
          (shift1 bbu)))[i]? = some false := by
      rw [getElem?_zipWith (fun x y => x && y) _ _ i _ _
        (getElem?_zipWith (fun a b => optLt b a) _ _ i _ _ hc hbbu)
        (getElem?_zipWith optLe _ _ i _ _ hw1 hw3)]
      simp [optLt]
    simp only [bb_trend] at hok
    by_cases hb : pyLower pt = "both"
    · rw [if_pos hb] at hok
      simp only [Except.map, Except.ok.injEq] at hok
      subst hok
      apply zeroDisallowed_getElem?_zero ht
      rw [getElem?_zipWith _ _ _ i false false hcond1 hcond2]
      simp
    · by_cases hl : pyLower pt = "long"
      · rw [if_neg hb, if_pos hl] at hok
        simp only [Except.map, Except.ok.injEq] at hok
        subst hok
        apply zeroDisallowed_getElem?_zero ht
        rw [List.getElem?_map, hcond2]
        rfl
      · by_cases hs : pyLower pt = "short"
        · rw [if_neg hb, if_neg hl, if_pos hs] at hok
          simp only [Except.map, Except.ok.injEq] at hok
          subst hok
          apply zeroDisallowed_getElem?_zero ht
          rw [List.getElem?_map, hcond1]
          rfl
        · rw [if_neg hb, if_neg hl, if_neg hs] at hok
          simp [Except.map] at hok
  · intro closes times rsiRaw lo hi ah i p t hhi hp hr ht
    simp only [pattern_rsi_trend, if_true]
    apply zeroDisallowed_getElem?_zero ht
    have hr0 : (rsiRaw.map (fun o => o.getD 0))[i]? = some 0 := by
      rw [List.getElem?_map, hr]
      rfl
    rw [getElem?_zipWith _ _ _ i p 0 hp hr0]
    have hno : ¬ (0 < p ∧ hi < 0) := fun h => absurd h.2 (not_lt.mpr hhi)
    simp [hno]
  · intro closes times rsiRaw lo hi i p t hp hr ht
    simp only [pattern_rsi_trend, zeroDisallowed_none]
    rw [if_neg (by decide : ¬("short" : String) = "long")]
    simp only [if_true]
    have hr0 : (rsiRaw.map (fun o => o.getD 0))[i]? = some 0 := by
      rw [List.getElem?_map, hr]
      rfl
    rw [getElem?_zipWith _ _ _ i p 0 hp hr0]

/-- C7 witness: a warm-up bar (undefined bands) gets 0 from `bb_trend`;
a warm-up bar with falling price gets 0 from the long side of
`pattern_rsi_trend` but `-1` from its short side. -/
theorem C7_witness :
    (([(0 : ℤ), 0])[0]? = some 0) ∧
    (pattern_rsi_trend [10, 9] [32400, 32460] [none, none] 30 70 none
        "long")[1]? = some 0 ∧
    (pattern_rsi_trend [10, 9] [32400, 32460] [none, none] 30 70 none
        "short")[1]? = some (-1) := by
  have ha : bb_trend [10, 20] [32400, 32460] [none, some 5] [none, some 15]
      none "both" = Except.ok [0, 0] := by
    norm_num [bb_trend, optLt, optLe, shift1, zeroDisallowed, pyLower]
    decide
  refine ⟨?_, ?_, ?_⟩
  · exact C7_warmupSignals.1 [10, 20] [32400, 32460] [none, some 5]
      [none, some 15] none "both" [0, 0] 0 10 32400 ha rfl rfl rfl rfl
  · exact C7_warmupSignals.2.1 [10, 9] [32400, 32460] [none, none] 30 70
      none 1 (-1/10) 32460 (by norm_num)
      (by norm_num [pctChange, pctChangeAux]) rfl rfl
  · have h := C7_warmupSignals.2.2 [10, 9] [32400, 32460] [none, none]
      30 70 1 (-1/10) 32460 (by norm_num [pctChange, pctChangeAux]) rfl rfl
    rw [h]
    norm_num

end Deployer
